import Mathlib

/-!
A shallow embedding of the SumGame simulation engine.

Sources: `src/types/game` (data model and grid constants) and
`src/src/App.tsx` (the engine: `initGame`, `addNewRow`, `toggleBlock`,
the sum-check effect with its gravity pass, and the scroll/tick driver).

Randomness (`Math.random()` draws inside `generateId`, `getRandomValue`
and `generateTarget`) is modelled by explicit oracle parameters: fresh
ids and values are supplied as functions of the loop indices, and the
single uniform draw of `generateTarget` is passed in as a rational in
`[0, 1)`.  The wall-clock interval is modelled by an explicit `tick`
step.  JavaScript numbers holding grid data are integers throughout the
engine, so `row`, `col`, `value`, scores and targets are embedded as
`Int`; `scrollProgress` accumulates the fractional speed and is embedded
as `ℚ` (exact arithmetic).
-/

/-- Constant `GRID_ROWS` from `src/types/game`. -/
def GRID_ROWS : Nat := 10

/-- Constant `GRID_COLS` from `src/types/game`. -/
def GRID_COLS : Nat := 6

/-- Constant `INITIAL_ROWS` from `src/types/game`. -/
def INITIAL_ROWS : Nat := 4

/-- Constant `BLOCKS_PER_ROW = GRID_COLS` (App.tsx line 116). -/
def BLOCKS_PER_ROW : Nat := GRID_COLS

/-- Constant `ROWS_PER_LEVEL` (App.tsx line 117). -/
def ROWS_PER_LEVEL : Nat := 5

/-- Constant `BLOCKS_PER_LEVEL = BLOCKS_PER_ROW * ROWS_PER_LEVEL` (App.tsx line 118). -/
def BLOCKS_PER_LEVEL : Nat := BLOCKS_PER_ROW * ROWS_PER_LEVEL

/-- The `Block` interface from `src/types/game`.  The optional field
`isNew?: boolean` is embedded as a `Bool` defaulting to `false`
(absent and `false` are not distinguished by the engine). -/
structure Block where
  id : String
  value : Int
  row : Int
  col : Int
  isNew : Bool := false
deriving DecidableEq

/-- The `GameMode` type from `src/types/game`. -/
inductive GameMode where
  | classic : GameMode
  | time : GameMode
deriving DecidableEq

/-- The simulation-relevant React state of `App` (App.tsx lines 123-140);
presentation-only state (`highScore`, `language`, `startLevel` selector,
`showLevelUp`) is omitted. -/
structure GameState where
  blocks : List Block
  targetSum : Int
  score : Int
  selectedIds : List String
  gameOver : Bool
  mode : GameMode
  isPaused : Bool
  level : Nat
  gameStarted : Bool
  scrollProgress : ℚ
  blocksClearedInLevel : Nat
deriving DecidableEq

/-- Function `generateTarget` (App.tsx line 42):
`Math.floor(Math.random() * (10 + Math.floor(level / 3))) + 5`,
with the `Math.random()` draw supplied as `rand`. -/
def generateTarget (rand : ℚ) (level : Nat) : Int :=
  Int.floor (rand * ((10 + level / 3 : Nat) : ℚ)) + 5

/-- The block grid built by `initGame` (App.tsx lines 156-166): for each
`r < INITIAL_ROWS` and `c < GRID_COLS`, a block at
`row = GRID_ROWS - 1 - r`, `col = c`, with oracle-supplied id and value. -/
def initBlocks (fid : Nat → Nat → String) (fval : Nat → Nat → Int) : List Block :=
  (List.range INITIAL_ROWS).flatMap fun r =>
    (List.range GRID_COLS).map fun c =>
      { id := fid r c, value := fval r c,
        row := (GRID_ROWS : Int) - 1 - r, col := (c : Int) }

/-- Function `initGame` (App.tsx lines 155-179). -/
def initGame (fid : Nat → Nat → String) (fval : Nat → Nat → Int) (rand : ℚ)
    (selectedMode : GameMode) (startLevel : Nat) : GameState :=
  { blocks := initBlocks fid fval
    targetSum := generateTarget rand startLevel
    score := 0
    selectedIds := []
    gameOver := false
    mode := selectedMode
    level := startLevel
    isPaused := false
    gameStarted := true
    scrollProgress := 0
    blocksClearedInLevel := 0 }

/-- The fresh bottom row pushed by `addNewRow` (App.tsx lines 196-205):
`GRID_COLS` blocks at `row = GRID_ROWS - 1`, tagged `isNew`. -/
def newRow (fid : Nat → String) (fval : Nat → Int) : List Block :=
  (List.range GRID_COLS).map fun c =>
    { id := fid c, value := fval c,
      row := (GRID_ROWS : Int) - 1, col := (c : Int), isNew := true }

/-- Function `addNewRow` (App.tsx lines 182-215): if any block has `row <= 0` the
call signals game-over and leaves the blocks alone; otherwise every block
is pushed up one row and a fresh bottom row is appended.  Either way
`scrollProgress` is reset to `0` (line 214 runs unconditionally). -/
def addNewRow (fid : Nat → String) (fval : Nat → Int) (s : GameState) : GameState :=
  if s.blocks.any fun b => b.row ≤ 0 then
    { s with gameOver := true, scrollProgress := 0 }
  else
    { s with
        blocks := (s.blocks.map fun b => { b with row := b.row - 1 }) ++ newRow fid fval
        scrollProgress := 0 }

/-- Function `toggleBlock` (App.tsx lines 218-227). -/
def toggleBlock (id : String) (s : GameState) : GameState :=
  if s.gameOver || s.isPaused then s
  else
    { s with
        selectedIds :=
          if s.selectedIds.contains id then s.selectedIds.filter (fun i => i != id)
          else s.selectedIds ++ [id] }

/-- Value `currentSum` of the sum-check effect (App.tsx lines 233-235):
`blocks.filter(b => selectedIds.includes(b.id)).reduce((sum, b) => sum + b.value, 0)`. -/
def currentSumOf (s : GameState) : Int :=
  ((s.blocks.filter fun b => s.selectedIds.contains b.id).foldl
    (fun sum b => sum + b.value) 0)

/-- The per-column row reassignment of the gravity pass (App.tsx lines
253-258): `colBlocks.forEach((b, idx) => push({ ...b, row: GRID_ROWS - 1 - idx }))`,
i.e. the block at position `idx` of the list gets row `r - idx` where the
first position gets `r`. -/
def assignRows : Int → List Block → List Block
  | _, [] => []
  | r, b :: bs => { b with row := r } :: assignRows (r - 1) bs

/-- The sort order of the gravity pass (App.tsx line 251): the comparator
`(a, b) => b.row - a.row` orders blocks by descending `row`. -/
def rowGe (a b : Block) : Prop := b.row ≤ a.row

instance : DecidableRel rowGe := fun a b => inferInstanceAs (Decidable (b.row ≤ a.row))

instance : IsTotal Block rowGe := ⟨fun a b => le_total b.row a.row⟩

instance : IsTrans Block rowGe := ⟨fun _ _ _ h h' => le_trans h' h⟩

/-- The gravity pass of the sum-check effect (App.tsx lines 246-260): per
column `c`, take the remaining blocks of that column, sort by descending
row, and reassign rows `GRID_ROWS - 1, GRID_ROWS - 2, …`.  JavaScript
`Array.prototype.sort` is a stable comparison sort; it is modelled by the
stable `List.insertionSort`. -/
def gravityPass (remaining : List Block) : List Block :=
  (List.range GRID_COLS).flatMap fun c =>
    assignRows ((GRID_ROWS : Int) - 1)
      ((remaining.filter fun b => b.col == (c : Int)).insertionSort rowGe)

/-- One column's slice of the gravity pass. -/
def gravityCol (remaining : List Block) (c : Nat) : List Block :=
  assignRows ((GRID_ROWS : Int) - 1)
    ((remaining.filter fun b => b.col == (c : Int)).insertionSort rowGe)

/-- The sum-check effect (App.tsx lines 230-288), with the fresh target
of `generateTarget(level)` supplied as `newTarget`.  The returned `Bool`
records whether the clear event (the success branch, lines 237-283)
fired. -/
def sumCheckStep (newTarget : Int) (s : GameState) : GameState × Bool :=
  if s.selectedIds.length = 0 then (s, false)
  else
    let currentSum := currentSumOf s
    if currentSum = s.targetSum then
      let points : Int := s.selectedIds.length * 10 * s.level
      let remaining := s.blocks.filter fun b => !(s.selectedIds.contains b.id)
      let newClearedCount := s.blocksClearedInLevel + s.selectedIds.length
      ({ s with
          score := s.score + points
          blocks := gravityPass remaining
          selectedIds := []
          targetSum := newTarget
          level := if BLOCKS_PER_LEVEL ≤ newClearedCount then s.level + 1 else s.level
          blocksClearedInLevel :=
            if BLOCKS_PER_LEVEL ≤ newClearedCount then newClearedCount - BLOCKS_PER_LEVEL
            else newClearedCount }, true)
    else if s.targetSum < currentSum then
      ({ s with selectedIds := [] }, false)
    else (s, false)

/-- The blocks that survive a clear event (App.tsx line 244):
`prev.filter(b => !selectedIds.includes(b.id))`. -/
def survivors (s : GameState) : List Block :=
  s.blocks.filter fun b => !(s.selectedIds.contains b.id)

/-- Scroll `speed` (App.tsx line 297): `0.5 + level * 0.15`. -/
def speed (level : Nat) : ℚ := 1 / 2 + level * (3 / 20)

/-- One firing of the scroll interval (App.tsx lines 291-312): when the
game is started, not over and not paused, add `speed` to
`scrollProgress`; if the updated progress would reach `100`, call
`addNewRow` (which resets progress to `0`) instead. -/
def tick (fid : Nat → String) (fval : Nat → Int) (s : GameState) : GameState :=
  if s.gameStarted && !s.gameOver && !s.isPaused then
    if s.scrollProgress + speed s.level ≥ 100 then addNewRow fid fval s
    else { s with scrollProgress := s.scrollProgress + speed s.level }
  else s

/-- The scroll-progress update of one interval firing (App.tsx lines
300-306), reduced to the progress variable: returns the new progress and
whether `addNewRow` was invoked. -/
def scrollTick (level : Nat) (p : ℚ) : ℚ × Bool :=
  if p + speed level ≥ 100 then (0, true) else (p + speed level, false)

/-- Iterate `scrollTick` from progress `0`, counting `addNewRow`
invocations. -/
def scrollIter (level : Nat) : Nat → ℚ × Nat
  | 0 => (0, 0)
  | n + 1 =>
    let pc := scrollIter level n
    let st := scrollTick level pc.1
    (st.1, if st.2 then pc.2 + 1 else pc.2)

/-- States reachable from `initGame` by the engine's transitions:
row spawns, scroll ticks, selection toggles, and sum-check resolutions. -/
inductive Reachable : GameState → Prop where
  | ofInit (fid : Nat → Nat → String) (fval : Nat → Nat → Int) (rand : ℚ)
      (m : GameMode) (startLevel : Nat) :
      Reachable (initGame fid fval rand m startLevel)
  | ofSpawn (fid : Nat → String) (fval : Nat → Int) (s : GameState) :
      Reachable s → Reachable (addNewRow fid fval s)
  | ofTick (fid : Nat → String) (fval : Nat → Int) (s : GameState) :
      Reachable s → Reachable (tick fid fval s)
  | ofToggle (id : String) (s : GameState) :
      Reachable s → Reachable (toggleBlock id s)
  | ofCheck (newTarget : Int) (s : GameState) :
      Reachable s → Reachable (sumCheckStep newTarget s).1

/-- Two blocks do not share a grid cell. -/
def cellFree (a b : Block) : Prop := a.row ≠ b.row ∨ a.col ≠ b.col

/-- At most one block occupies any `(row, col)` pair. -/
def CellUnique (l : List Block) : Prop := l.Pairwise cellFree

/-- Every block sits inside the grid. -/
def InBounds (l : List Block) : Prop :=
  ∀ b ∈ l, 0 ≤ b.row ∧ b.row < (GRID_ROWS : Int) ∧ 0 ≤ b.col ∧ b.col < (GRID_COLS : Int)

/-- The grid invariant maintained by the engine. -/
def GridInv (l : List Block) : Prop := CellUnique l ∧ InBounds l

instance : DecidableRel cellFree := fun a b =>
  inferInstanceAs (Decidable (a.row ≠ b.row ∨ a.col ≠ b.col))

instance (l : List Block) : Decidable (CellUnique l) :=
  inferInstanceAs (Decidable (l.Pairwise cellFree))

instance (l : List Block) : Decidable (InBounds l) :=
  inferInstanceAs (Decidable (∀ b ∈ l, 0 ≤ b.row ∧ b.row < (GRID_ROWS : Int) ∧
    0 ≤ b.col ∧ b.col < (GRID_COLS : Int)))

instance (l : List Block) : Decidable (GridInv l) :=
  inferInstanceAs (Decidable (CellUnique l ∧ InBounds l))

/-! ## Concrete sample states used by witnesses and counterexamples -/

def c1State : GameState :=
  { blocks := [{ id := "a", value := 3, row := 9, col := 0 },
               { id := "b", value := 4, row := 9, col := 1 }]
    targetSum := 7
    score := 0
    selectedIds := ["a", "b"]
    gameOver := false
    mode := GameMode.classic
    isPaused := false
    level := 1
    gameStarted := true
    scrollProgress := 0
    blocksClearedInLevel := 0 }

def c6State : GameState :=
  { blocks := [{ id := "a", value := 3, row := 9, col := 0 }]
    targetSum := 10
    score := 0
    selectedIds := []
    gameOver := false
    mode := GameMode.classic
    isPaused := false
    level := 1
    gameStarted := true
    scrollProgress := 0
    blocksClearedInLevel := 0 }

def c6wState : GameState :=
  { blocks := [{ id := "a", value := 3, row := 9, col := 0 }]
    targetSum := 10
    score := 0
    selectedIds := ["q"]
    gameOver := false
    mode := GameMode.classic
    isPaused := false
    level := 1
    gameStarted := true
    scrollProgress := 0
    blocksClearedInLevel := 0 }

def c7State : GameState :=
  { blocks := [{ id := "z", value := 1, row := 0, col := 0 }]
    targetSum := 10
    score := 0
    selectedIds := []
    gameOver := false
    mode := GameMode.classic
    isPaused := false
    level := 1
    gameStarted := true
    scrollProgress := 50
    blocksClearedInLevel := 0 }

/-- Thirty-one unit-valued blocks on distinct cells, all selected, with target 31
and 29 blocks already cleared in the level: one clear crosses two level
thresholds at once. -/
def c4Blocks : List Block :=
  (List.range 31).map fun i =>
    { id := String.mk (List.replicate i 'a'), value := 1,
      row := 9 - ((i / 6 : Nat) : Int), col := ((i % 6 : Nat) : Int) }

def c4State : GameState :=
  { blocks := c4Blocks
    targetSum := 31
    score := 0
    selectedIds := c4Blocks.map (fun b => b.id)
    gameOver := false
    mode := GameMode.classic
    isPaused := false
    level := 1
    gameStarted := true
    scrollProgress := 0
    blocksClearedInLevel := 29 }

def c4wState : GameState :=
  { blocks := [{ id := "a", value := 3, row := 9, col := 0 },
               { id := "b", value := 4, row := 9, col := 1 }]
    targetSum := 7
    score := 100
    selectedIds := ["a", "b"]
    gameOver := false
    mode := GameMode.classic
    isPaused := false
    level := 2
    gameStarted := true
    scrollProgress := 0
    blocksClearedInLevel := 29 }

def c2wState : GameState :=
  { blocks := [{ id := "a", value := 1, row := 5, col := 0 }]
    targetSum := 10
    score := 0
    selectedIds := []
    gameOver := false
    mode := GameMode.classic
    isPaused := false
    level := 1
    gameStarted := true
    scrollProgress := 0
    blocksClearedInLevel := 0 }

def c8wState : GameState :=
  { blocks := [{ id := "a", value := 1, row := 5, col := 0 }]
    targetSum := 10
    score := 0
    selectedIds := []
    gameOver := false
    mode := GameMode.classic
    isPaused := false
    level := 1
    gameStarted := true
    scrollProgress := 40
    blocksClearedInLevel := 0 }

def c10State : GameState :=
  { blocks := [{ id := "a", value := 3, row := 9, col := 0 }]
    targetSum := 10
    score := 0
    selectedIds := ["ghost"]
    gameOver := false
    mode := GameMode.classic
    isPaused := false
    level := 1
    gameStarted := true
    scrollProgress := 0
    blocksClearedInLevel := 0 }

def c3State : GameState :=
  { blocks := [{ id := "a", value := 3, row := 9, col := 0 },
               { id := "b", value := 4, row := 8, col := 0 },
               { id := "d", value := 2, row := 7, col := 0 }]
    targetSum := 4
    score := 0
    selectedIds := ["b"]
    gameOver := false
    mode := GameMode.classic
    isPaused := false
    level := 1
    gameStarted := true
    scrollProgress := 0
    blocksClearedInLevel := 0 }

/-! ## Branch lemmas for the sum-check effect -/

lemma selectedIds_length_ne_zero (s : GameState) (hne : s.selectedIds ≠ []) :
    ¬ s.selectedIds.length = 0 := by
  simpa [List.length_eq_zero] using hne

lemma sumCheckStep_under (s : GameState) (t : Int) (hne : s.selectedIds ≠ [])
    (hlt : currentSumOf s < s.targetSum) : sumCheckStep t s = (s, false) := by
  have hlen := selectedIds_length_ne_zero s hne
  have h1 : ¬ currentSumOf s = s.targetSum := by omega
  have h2 : ¬ s.targetSum < currentSumOf s := by omega
  simp [sumCheckStep, hlen, h1, h2]

lemma sumCheckStep_over (s : GameState) (t : Int) (hne : s.selectedIds ≠ [])
    (hgt : s.targetSum < currentSumOf s) :
    sumCheckStep t s = ({ s with selectedIds := [] }, false) := by
  have hlen := selectedIds_length_ne_zero s hne
  have h1 : ¬ currentSumOf s = s.targetSum := by omega
  simp [sumCheckStep, hlen, h1, hgt]

lemma sumCheckStep_fire (s : GameState) (t : Int) (hne : s.selectedIds ≠ [])
    (hsum : currentSumOf s = s.targetSum) :
    sumCheckStep t s =
      ({ s with
          score := s.score + s.selectedIds.length * 10 * s.level
          blocks := gravityPass (s.blocks.filter fun b => !(s.selectedIds.contains b.id))
          selectedIds := []
          targetSum := t
          level :=
            if BLOCKS_PER_LEVEL ≤ s.blocksClearedInLevel + s.selectedIds.length then
              s.level + 1
            else s.level
          blocksClearedInLevel :=
            if BLOCKS_PER_LEVEL ≤ s.blocksClearedInLevel + s.selectedIds.length then
              s.blocksClearedInLevel + s.selectedIds.length - BLOCKS_PER_LEVEL
            else s.blocksClearedInLevel + s.selectedIds.length }, true) := by
  have hlen := selectedIds_length_ne_zero s hne
  simp [sumCheckStep, hlen, hsum]

/-! ## C1 -/

/-- C1: in a state that is not game-over and not paused, with a non-empty
selection, the clear event fires iff the selection's current sum equals
the target; a strictly greater sum atomically empties the selection and
changes nothing else; a strictly smaller sum leaves the state unchanged. -/
theorem sum_resolution_after_selection_change (s : GameState) (newTarget : Int)
    (hgo : s.gameOver = false) (hp : s.isPaused = false)
    (hne : s.selectedIds ≠ []) :
    ((sumCheckStep newTarget s).2 = true ↔ currentSumOf s = s.targetSum)
    ∧ (s.targetSum < currentSumOf s →
        (sumCheckStep newTarget s).1 = { s with selectedIds := [] })
    ∧ (currentSumOf s < s.targetSum → (sumCheckStep newTarget s).1 = s) := by
  refine ⟨?_, ?_, ?_⟩
  · constructor
    · intro hfl
      by_contra hsum
      rcases lt_or_gt_of_ne (a := currentSumOf s) (b := s.targetSum) hsum with h | h
      · rw [sumCheckStep_under s newTarget hne h] at hfl
        simp at hfl
      · rw [sumCheckStep_over s newTarget hne h] at hfl
        simp at hfl
    · intro hsum
      rw [sumCheckStep_fire s newTarget hne hsum]
  · intro hgt
    rw [sumCheckStep_over s newTarget hne hgt]
  · intro hlt
    rw [sumCheckStep_under s newTarget hne hlt]

/-- Witness for C1 at a concrete two-block selection summing to the target. -/
theorem sum_resolution_after_selection_change_witness :
    c1State.gameOver = false ∧ c1State.isPaused = false ∧ c1State.selectedIds ≠ [] ∧
    (((sumCheckStep 9 c1State).2 = true ↔ currentSumOf c1State = c1State.targetSum)
    ∧ (c1State.targetSum < currentSumOf c1State →
        (sumCheckStep 9 c1State).1 = { c1State with selectedIds := [] })
    ∧ (currentSumOf c1State < c1State.targetSum → (sumCheckStep 9 c1State).1 = c1State)) :=
  ⟨rfl, rfl, by decide,
    sum_resolution_after_selection_change c1State 9 rfl rfl (by decide)⟩

/-! ## C6 -/

/-- C6 counterexample: `toggleBlock` performs no existence check, so
toggling the id `"zz"`, which matches no block, still changes
`selectedIds` (it is appended). -/
theorem toggle_nonexistent_id_counterexample :
    c6State.gameOver = false ∧ c6State.isPaused = false ∧
    (∀ b ∈ c6State.blocks, b.id ≠ "zz") ∧
    (toggleBlock "zz" c6State).selectedIds ≠ c6State.selectedIds := by decide

/-- C6 amended: in a state that is not game-over and not paused, toggling
an id that matches no block still updates `selectedIds` exactly as for
any id — appending the id when it is absent and removing its occurrences
when present (so its membership flips and the selection changes: it is
not a no-op) — while every other state field (`blocks`, `score`,
`targetSum`, `level`, `gameOver`, `mode`, `isPaused`, `gameStarted`,
`scrollProgress`, `blocksClearedInLevel`) is unchanged. -/
theorem toggle_nonexistent_id_amended (s : GameState) (id : String)
    (hgo : s.gameOver = false) (hp : s.isPaused = false)
    (hid : ∀ b ∈ s.blocks, b.id ≠ id) :
    ((toggleBlock id s).selectedIds =
      if id ∈ s.selectedIds then s.selectedIds.filter (fun i => i != id)
      else s.selectedIds ++ [id])
    ∧ (toggleBlock id s).selectedIds ≠ s.selectedIds
    ∧ (id ∈ (toggleBlock id s).selectedIds ↔ id ∉ s.selectedIds)
    ∧ (toggleBlock id s).blocks = s.blocks
    ∧ (toggleBlock id s).score = s.score
    ∧ (toggleBlock id s).targetSum = s.targetSum
    ∧ (toggleBlock id s).level = s.level
    ∧ (toggleBlock id s).gameOver = s.gameOver
    ∧ (toggleBlock id s).mode = s.mode
    ∧ (toggleBlock id s).isPaused = s.isPaused
    ∧ (toggleBlock id s).gameStarted = s.gameStarted
    ∧ (toggleBlock id s).scrollProgress = s.scrollProgress
    ∧ (toggleBlock id s).blocksClearedInLevel = s.blocksClearedInLevel := by
  have hstep : toggleBlock id s =
      { s with selectedIds :=
          if s.selectedIds.contains id then s.selectedIds.filter (fun i => i != id)
          else s.selectedIds ++ [id] } := by
    unfold toggleBlock
    rw [hgo, hp]
    rfl
  rw [hstep]
  by_cases hmem : id ∈ s.selectedIds
  · have hc : s.selectedIds.contains id = true := by
      simpa [List.contains, List.elem_iff] using hmem
    rw [if_pos hc, if_pos hmem]
    refine ⟨rfl, ?_, ?_, rfl, rfl, rfl, rfl, rfl, rfl, rfl, rfl, rfl, rfl⟩
    · show ¬ (s.selectedIds.filter (fun i => i != id) = s.selectedIds)
      intro heq
      have hin : id ∈ s.selectedIds.filter (fun i => i != id) := by
        rw [heq]
        exact hmem
      rcases List.mem_filter.mp hin with ⟨-, hne⟩
      simp at hne
    · show id ∈ s.selectedIds.filter (fun i => i != id) ↔ id ∉ s.selectedIds
      simp only [List.mem_filter]
      constructor
      · rintro ⟨-, hne⟩
        simp at hne
      · intro hnot
        exact absurd hmem hnot
  · have hc : s.selectedIds.contains id = false := by
      simpa [List.contains, List.elem_iff] using hmem
    have hcond : ¬ (s.selectedIds.contains id = true) := by
      rw [hc]
      exact Bool.false_ne_true
    rw [if_neg hcond, if_neg hmem]
    refine ⟨rfl, ?_, ?_, rfl, rfl, rfl, rfl, rfl, rfl, rfl, rfl, rfl, rfl⟩
    · show ¬ (s.selectedIds ++ [id] = s.selectedIds)
      intro heq
      have hlen := congrArg List.length heq
      simp at hlen
    · show id ∈ s.selectedIds ++ [id] ↔ id ∉ s.selectedIds
      simp [hmem]

/-- Witness for the amended C6 at a concrete state and unmatched id. -/
theorem toggle_nonexistent_id_amended_witness :
    c6wState.gameOver = false ∧ c6wState.isPaused = false ∧
    (∀ b ∈ c6wState.blocks, b.id ≠ "zz") ∧
    (((toggleBlock "zz" c6wState).selectedIds =
      if "zz" ∈ c6wState.selectedIds then c6wState.selectedIds.filter (fun i => i != "zz")
      else c6wState.selectedIds ++ ["zz"])
    ∧ (toggleBlock "zz" c6wState).selectedIds ≠ c6wState.selectedIds
    ∧ ("zz" ∈ (toggleBlock "zz" c6wState).selectedIds ↔ "zz" ∉ c6wState.selectedIds)
    ∧ (toggleBlock "zz" c6wState).blocks = c6wState.blocks
    ∧ (toggleBlock "zz" c6wState).score = c6wState.score
    ∧ (toggleBlock "zz" c6wState).targetSum = c6wState.targetSum
    ∧ (toggleBlock "zz" c6wState).level = c6wState.level
    ∧ (toggleBlock "zz" c6wState).gameOver = c6wState.gameOver
    ∧ (toggleBlock "zz" c6wState).mode = c6wState.mode
    ∧ (toggleBlock "zz" c6wState).isPaused = c6wState.isPaused
    ∧ (toggleBlock "zz" c6wState).gameStarted = c6wState.gameStarted
    ∧ (toggleBlock "zz" c6wState).scrollProgress = c6wState.scrollProgress
    ∧ (toggleBlock "zz" c6wState).blocksClearedInLevel = c6wState.blocksClearedInLevel) :=
  ⟨rfl, rfl, by decide,
    toggle_nonexistent_id_amended c6wState "zz" rfl rfl (by decide)⟩

/-! ## C7 -/

/-- C7 counterexample: `addNewRow` resets `scrollProgress` to `0`
unconditionally (App.tsx line 214), so in the game-over branch a state
with `scrollProgress = 50` does not keep its scroll progress. -/
theorem spawnRow_gameOver_scrollProgress_counterexample :
    (∃ b ∈ c7State.blocks, b.row ≤ 0) ∧
    (addNewRow (fun _ => "n") (fun _ => 1) c7State).scrollProgress ≠
      c7State.scrollProgress := by decide

/-- C7 amended: when some block has `row ≤ 0`, `addNewRow` sets
`gameOver = true`, leaves `blocks` unchanged, and resets
`scrollProgress` to `0` (rather than leaving it unchanged). -/
theorem spawnRow_gameOver_frame (fid : Nat → String) (fval : Nat → Int)
    (s : GameState) (h : ∃ b ∈ s.blocks, b.row ≤ 0) :
    (addNewRow fid fval s).gameOver = true
    ∧ (addNewRow fid fval s).blocks = s.blocks
    ∧ (addNewRow fid fval s).scrollProgress = 0 := by
  have hany : (s.blocks.any fun b => b.row ≤ 0) = true := by
    rcases h with ⟨b, hb, hrow⟩
    simp only [List.any_eq_true, decide_eq_true_eq]
    exact ⟨b, hb, hrow⟩
  unfold addNewRow
  rw [hany]
  exact ⟨rfl, rfl, rfl⟩

/-- Witness for the amended C7 at a concrete blocked state. -/
theorem spawnRow_gameOver_frame_witness :
    (∃ b ∈ c7State.blocks, b.row ≤ 0) ∧
    ((addNewRow (fun _ => "w") (fun _ => 2) c7State).gameOver = true
    ∧ (addNewRow (fun _ => "w") (fun _ => 2) c7State).blocks = c7State.blocks
    ∧ (addNewRow (fun _ => "w") (fun _ => 2) c7State).scrollProgress = 0) :=
  ⟨by decide, spawnRow_gameOver_frame (fun _ => "w") (fun _ => 2) c7State (by decide)⟩

/-! ## C10 -/

/-- C10: every generated target is at least `5`, and a fully stale
non-empty selection (no selected id matches any block) sums to `0`, so
the sum check neither fires the clear event nor resets the selection:
the state is left unchanged. -/
theorem stale_selection_never_clears (s : GameState) (t : Int)
    (htgt : 5 ≤ s.targetSum) (hne : s.selectedIds ≠ [])
    (hstale : ∀ b ∈ s.blocks, b.id ∉ s.selectedIds) :
    (∀ (rand : ℚ) (lvl : Nat), 0 ≤ rand → 5 ≤ generateTarget rand lvl)
    ∧ currentSumOf s = 0
    ∧ (sumCheckStep t s).1 = s
    ∧ (sumCheckStep t s).2 = false := by
  have hfil : (s.blocks.filter fun b => s.selectedIds.contains b.id) = [] := by
    rw [List.filter_eq_nil_iff]
    intro b hb
    simpa [List.contains, List.elem_iff] using hstale b hb
  have hsum : currentSumOf s = 0 := by
    unfold currentSumOf
    rw [hfil]
    rfl
  have hunder : currentSumOf s < s.targetSum := by omega
  refine ⟨?_, hsum, ?_, ?_⟩
  · intro rand lvl hrand
    have hm : (0 : ℚ) ≤ ((10 + lvl / 3 : Nat) : ℚ) := by positivity
    have : (0 : ℤ) ≤ Int.floor (rand * ((10 + lvl / 3 : Nat) : ℚ)) :=
      Int.floor_nonneg.mpr (mul_nonneg hrand hm)
    unfold generateTarget
    omega
  · rw [sumCheckStep_under s t hne hunder]
  · rw [sumCheckStep_under s t hne hunder]

/-- Witness for C10 at a concrete state whose one selected id is stale. -/
theorem stale_selection_never_clears_witness :
    5 ≤ c10State.targetSum ∧ c10State.selectedIds ≠ [] ∧
    (∀ b ∈ c10State.blocks, b.id ∉ c10State.selectedIds) ∧
    ((∀ (rand : ℚ) (lvl : Nat), 0 ≤ rand → 5 ≤ generateTarget rand lvl)
    ∧ currentSumOf c10State = 0
    ∧ (sumCheckStep 8 c10State).1 = c10State
    ∧ (sumCheckStep 8 c10State).2 = false) :=
  ⟨by decide, by decide, by decide,
    stale_selection_never_clears c10State 8 (by decide) (by decide) (by decide)⟩

/-! ## C4 -/

/-- C4 counterexample: a clear of 31 blocks with 29 already accumulated
reaches `29 + 31 = 60 = 2 * BLOCKS_PER_LEVEL`, crossing two thresholds,
yet `level` increments only once (the code has a single `if`, not a
loop), and the carried accumulator is `30`, not `0`. -/
theorem level_threshold_carry_counterexample :
    c4State.selectedIds ≠ [] ∧
    currentSumOf c4State = c4State.targetSum ∧
    c4State.blocksClearedInLevel + c4State.selectedIds.length = 2 * BLOCKS_PER_LEVEL ∧
    (sumCheckStep 9 c4State).1.level = c4State.level + 1 ∧
    (sumCheckStep 9 c4State).1.level ≠
      c4State.level +
        (c4State.blocksClearedInLevel + c4State.selectedIds.length) / BLOCKS_PER_LEVEL ∧
    (sumCheckStep 9 c4State).1.blocksClearedInLevel = BLOCKS_PER_LEVEL := by decide

/-- C4 amended: on every clear event removing `n` blocks the accumulator
advances by `n`; if the new count reaches `BLOCKS_PER_LEVEL`, `level`
increments by exactly one — even when the count crosses several
thresholds — and the accumulator carries `newClearedCount -
BLOCKS_PER_LEVEL` forward (which may itself still reach the threshold). -/
theorem level_threshold_carry (s : GameState) (t : Int)
    (hne : s.selectedIds ≠ []) (hsum : currentSumOf s = s.targetSum) :
    (BLOCKS_PER_LEVEL ≤ s.blocksClearedInLevel + s.selectedIds.length →
      (sumCheckStep t s).1.level = s.level + 1
      ∧ (sumCheckStep t s).1.blocksClearedInLevel =
          s.blocksClearedInLevel + s.selectedIds.length - BLOCKS_PER_LEVEL)
    ∧ (s.blocksClearedInLevel + s.selectedIds.length < BLOCKS_PER_LEVEL →
      (sumCheckStep t s).1.level = s.level
      ∧ (sumCheckStep t s).1.blocksClearedInLevel =
          s.blocksClearedInLevel + s.selectedIds.length) := by
  rw [sumCheckStep_fire s t hne hsum]
  constructor
  · intro hge
    constructor
    · simp [if_pos hge]
    · simp [if_pos hge]
  · intro hlt
    have hnot : ¬ BLOCKS_PER_LEVEL ≤ s.blocksClearedInLevel + s.selectedIds.length := by omega
    constructor
    · simp [if_neg hnot]
    · simp [if_neg hnot]

/-- Witness for the amended C4: a two-block clear with 29 accumulated
crosses the threshold `30` once and carries remainder `1`. -/
theorem level_threshold_carry_witness :
    c4wState.selectedIds ≠ [] ∧ currentSumOf c4wState = c4wState.targetSum ∧
    BLOCKS_PER_LEVEL ≤ c4wState.blocksClearedInLevel + c4wState.selectedIds.length ∧
    (sumCheckStep 11 c4wState).1.level = c4wState.level + 1 ∧
    (sumCheckStep 11 c4wState).1.blocksClearedInLevel =
      c4wState.blocksClearedInLevel + c4wState.selectedIds.length - BLOCKS_PER_LEVEL :=
  ⟨by decide, by decide, by decide,
    ((level_threshold_carry c4wState 11 (by decide) (by decide)).1 (by decide)).1,
    ((level_threshold_carry c4wState 11 (by decide) (by decide)).1 (by decide)).2⟩

/-! ## C2 -/

/-- C2: in a non-game-over state, `addNewRow` sets `gameOver` and leaves
`blocks` unchanged iff some block has `row ≤ 0` beforehand; otherwise
`gameOver` stays `false`, every block's row drops by exactly `1`, and
`GRID_COLS` fresh blocks tagged `isNew` are appended at row
`GRID_ROWS - 1`. -/
theorem spawnRow_gameOver_iff (fid : Nat → String) (fval : Nat → Int)
    (s : GameState) (hgo : s.gameOver = false) :
    ((∃ b ∈ s.blocks, b.row ≤ 0) ↔
      ((addNewRow fid fval s).gameOver = true ∧ (addNewRow fid fval s).blocks = s.blocks))
    ∧ ((∀ b ∈ s.blocks, 0 < b.row) →
      (addNewRow fid fval s).gameOver = false
      ∧ (addNewRow fid fval s).blocks =
          (s.blocks.map fun b => { b with row := b.row - 1 }) ++ newRow fid fval
      ∧ (addNewRow fid fval s).blocks.length = s.blocks.length + GRID_COLS
      ∧ (newRow fid fval).length = GRID_COLS
      ∧ ∀ b ∈ newRow fid fval, b.isNew = true ∧ b.row = (GRID_ROWS : Int) - 1) := by
  by_cases hany : (s.blocks.any fun b => b.row ≤ 0) = true
  · have hstep : addNewRow fid fval s = { s with gameOver := true, scrollProgress := 0 } := by
      unfold addNewRow
      rw [if_pos hany]
    rcases List.any_eq_true.mp hany with ⟨b, hb, hrow⟩
    rw [decide_eq_true_eq] at hrow
    constructor
    · rw [hstep]
      exact ⟨fun _ => ⟨rfl, rfl⟩, fun _ => ⟨b, hb, hrow⟩⟩
    · intro hall
      exact absurd hrow (by have := hall b hb; omega)
  · have hstep : addNewRow fid fval s =
        { s with
            blocks := (s.blocks.map fun b => { b with row := b.row - 1 }) ++ newRow fid fval
            scrollProgress := 0 } := by
      unfold addNewRow
      rw [if_neg hany]
    have hnoex : ¬ ∃ b ∈ s.blocks, b.row ≤ 0 := by
      rw [List.any_eq_true] at hany
      intro ⟨b, hb, hrow⟩
      exact hany ⟨b, hb, decide_eq_true hrow⟩
    constructor
    · rw [hstep]
      constructor
      · intro hex
        exact absurd hex hnoex
      · rintro ⟨hover, -⟩
        rw [hgo] at hover
        exact absurd hover (by simp)
    · intro _
      rw [hstep]
      refine ⟨hgo, rfl, ?_, ?_, ?_⟩
      · simp [newRow]
      · simp [newRow]
      · intro b hb
        simp only [newRow, List.mem_map, List.mem_range] at hb
        rcases hb with ⟨c, -, rfl⟩
        exact ⟨rfl, rfl⟩

/-- Witness for C2 at a concrete one-block state away from the top. -/
theorem spawnRow_gameOver_iff_witness :
    c2wState.gameOver = false ∧
    (((∃ b ∈ c2wState.blocks, b.row ≤ 0) ↔
      ((addNewRow (fun _ => "n") (fun _ => 1) c2wState).gameOver = true ∧
        (addNewRow (fun _ => "n") (fun _ => 1) c2wState).blocks = c2wState.blocks))
    ∧ ((∀ b ∈ c2wState.blocks, 0 < b.row) →
      (addNewRow (fun _ => "n") (fun _ => 1) c2wState).gameOver = false
      ∧ (addNewRow (fun _ => "n") (fun _ => 1) c2wState).blocks =
          (c2wState.blocks.map fun b => { b with row := b.row - 1 }) ++
            newRow (fun _ => "n") (fun _ => 1)
      ∧ (addNewRow (fun _ => "n") (fun _ => 1) c2wState).blocks.length =
          c2wState.blocks.length + GRID_COLS
      ∧ (newRow (fun _ => "n") (fun _ => 1)).length = GRID_COLS
      ∧ ∀ b ∈ newRow (fun _ => "n") (fun _ => 1),
          b.isNew = true ∧ b.row = (GRID_ROWS : Int) - 1)) :=
  ⟨rfl, spawnRow_gameOver_iff (fun _ => "n") (fun _ => 1) c2wState rfl⟩

/-! ## C8 -/

lemma speed_one : speed 1 = 13 / 20 := by norm_num [speed]

lemma addNewRow_scrollProgress (fid : Nat → String) (fval : Nat → Int) (s : GameState) :
    (addNewRow fid fval s).scrollProgress = 0 := by
  unfold addNewRow
  split <;> rfl

/-- At level 1 the scroll progress after `n` ticks is `(n % 154) * 13/20`
and `addNewRow` has been invoked `n / 154` times: a spawn happens on
every 154th tick (`153 * 13/20 + 13/20 = 100.1 ≥ 100`, while
`152 * 13/20 + 13/20 = 99.45 < 100`). -/
lemma scrollIter_one (n : Nat) :
    scrollIter 1 n = (((n % 154 : Nat) : ℚ) * (13 / 20), n / 154) := by
  induction n with
  | zero => simp [scrollIter]
  | succ n ih =>
    simp only [scrollIter, ih]
    by_cases hk : n % 154 = 153
    · have hcond : ((n % 154 : Nat) : ℚ) * (13 / 20) + speed 1 ≥ 100 := by
        rw [hk, speed_one]
        norm_num
      have h1 : (n + 1) % 154 = 0 := by omega
      have h2 : (n + 1) / 154 = n / 154 + 1 := by omega
      simp only [scrollTick, if_pos hcond, h1, h2]
      norm_num
    · have hle : n % 154 ≤ 152 := by omega
      have hkq : ((n % 154 : Nat) : ℚ) ≤ 152 := by exact_mod_cast hle
      have hcond : ¬ ((n % 154 : Nat) : ℚ) * (13 / 20) + speed 1 ≥ 100 := by
        rw [speed_one]
        nlinarith
      have h1 : (n + 1) % 154 = n % 154 + 1 := by omega
      have h2 : (n + 1) / 154 = n / 154 := by omega
      simp only [scrollTick, if_neg hcond, h1, h2, if_false, Bool.false_eq_true]
      rw [speed_one]
      push_cast
      rw [Prod.mk.injEq]
      exact ⟨by ring, rfl⟩

/-- C8: at level 1 (`speed = 0.65`), 1000 ticks from progress `0` invoke
`addNewRow` exactly `6 = ⌊1000 * 0.65 / 100⌋` times; and whenever the
game is started, not over and not paused, the real `tick` step updates
`scrollProgress` exactly as `scrollTick` does (spawning resets it to
`0`). -/
theorem tick_spawn_count :
    (scrollIter 1 1000).2 = 6
    ∧ (⌊(1000 * speed 1) / 100⌋ : ℤ) = 6
    ∧ ∀ (fid : Nat → String) (fval : Nat → Int) (s : GameState),
        s.gameStarted = true → s.gameOver = false → s.isPaused = false →
        (tick fid fval s).scrollProgress = (scrollTick s.level s.scrollProgress).1 := by
  refine ⟨by rw [scrollIter_one], ?_, ?_⟩
  · rw [speed_one]
    norm_num [Int.floor_eq_iff]
  · intro fid fval s hst hgo hp
    have hcond : (s.gameStarted && !s.gameOver && !s.isPaused) = true := by
      rw [hst, hgo, hp]
      rfl
    unfold tick
    rw [hcond]
    simp only [if_true]
    by_cases hsp : s.scrollProgress + speed s.level ≥ 100
    · rw [if_pos hsp, addNewRow_scrollProgress]
      simp [scrollTick, if_pos hsp]
    · rw [if_neg hsp]
      simp [scrollTick, if_neg hsp]

/-- Witness for C8: the tick/scrollTick correspondence discharged at a
concrete running state. -/
theorem tick_spawn_count_witness :
    (scrollIter 1 1000).2 = 6 ∧
    (tick (fun _ => "n") (fun _ => 1) c8wState).scrollProgress =
      (scrollTick c8wState.level c8wState.scrollProgress).1 :=
  ⟨tick_spawn_count.1,
    tick_spawn_count.2.2 (fun _ => "n") (fun _ => 1) c8wState rfl rfl rfl⟩

/-! ## Gravity toolkit -/

lemma assignRows_length (r : Int) (l : List Block) : (assignRows r l).length = l.length := by
  induction l generalizing r with
  | nil => rfl
  | cons b bs ih => simp [assignRows, ih]

lemma assignRows_get (r : Int) (l : List Block) (i : Nat) (h : i < l.length) :
    (assignRows r l).get ⟨i, by rw [assignRows_length]; exact h⟩ =
      { l.get ⟨i, h⟩ with row := r - i } := by
  induction l generalizing r i with
  | nil => exact absurd h (by simp)
  | cons b bs ih =>
    cases i with
    | zero => simp [assignRows]
    | succ j =>
      have hj : j < bs.length := by simpa using h
      have hrec := ih (r - 1) j hj
      simp only [List.get_eq_getElem] at hrec
      simp only [assignRows, List.get_eq_getElem, List.getElem_cons_succ]
      rw [hrec]
      push_cast
      ring_nf

lemma mem_assignRows {x : Block} {r : Int} {l : List Block} :
    x ∈ assignRows r l ↔
      ∃ (i : Nat) (h : i < l.length), x = { l.get ⟨i, h⟩ with row := r - i } := by
  constructor
  · intro hx
    rcases List.mem_iff_getElem.mp hx with ⟨i, hi, hget⟩
    have hi' : i < l.length := by rwa [assignRows_length] at hi
    refine ⟨i, hi', ?_⟩
    rw [← hget]
    exact assignRows_get r l i hi'
  · rintro ⟨i, h, rfl⟩
    rw [← assignRows_get r l i h]
    exact List.get_mem _ _ _

lemma assignRows_row_le {x : Block} {r : Int} {l : List Block} (hx : x ∈ assignRows r l) :
    r - l.length < x.row ∧ x.row ≤ r := by
  rcases mem_assignRows.mp hx with ⟨i, h, rfl⟩
  have : (i : Int) < (l.length : Int) := by exact_mod_cast h
  constructor
  · simp only
    omega
  · simp only
    omega

lemma assignRows_pairwise_desc (r : Int) (l : List Block) :
    (assignRows r l).Pairwise fun a b => b.row < a.row := by
  induction l generalizing r with
  | nil => exact List.Pairwise.nil
  | cons b bs ih =>
    refine List.Pairwise.cons ?_ (ih (r - 1))
    intro y hy
    have := (assignRows_row_le hy).2
    simp only
    omega

lemma assignRows_fields {x : Block} {r : Int} {l : List Block} (hx : x ∈ assignRows r l) :
    ∃ y ∈ l, x.id = y.id ∧ x.col = y.col ∧ x.value = y.value ∧ x.isNew = y.isNew := by
  rcases mem_assignRows.mp hx with ⟨i, h, rfl⟩
  exact ⟨l.get ⟨i, h⟩, List.get_mem _ _ _, rfl, rfl, rfl, rfl⟩

lemma gravityPass_eq_flatMap (remaining : List Block) :
    gravityPass remaining = (List.range GRID_COLS).flatMap (gravityCol remaining) := rfl

lemma col_of_mem_gravityCol {x : Block} {remaining : List Block} {c : Nat}
    (hx : x ∈ gravityCol remaining c) : x.col = (c : Int) := by
  rcases assignRows_fields hx with ⟨y, hy, -, hcol, -, -⟩
  have hy' : y ∈ remaining.filter fun b => b.col == (c : Int) :=
    (List.mem_insertionSort rowGe).mp hy
  have := List.of_mem_filter hy'
  rw [hcol]
  exact_mod_cast of_decide_eq_true (by simpa using this)

lemma length_le_of_nodup_bounded (m : List Int) (n : Nat) (hnd : m.Nodup)
    (hb : ∀ x ∈ m, 0 ≤ x ∧ x < (n : Int)) : m.length ≤ n := by
  have hsub : m.toFinset ⊆ Finset.Ico (0 : Int) n := by
    intro x hx
    rw [List.mem_toFinset] at hx
    rcases hb x hx with ⟨h1, h2⟩
    rw [Finset.mem_Ico]
    exact ⟨h1, h2⟩
  have hcard := Finset.card_le_card hsub
  rw [List.toFinset_card_of_nodup hnd, Int.card_Ico] at hcard
  simpa using hcard

lemma col_filter_length_le {l : List Block} (hinv : GridInv l) (c : Nat) :
    (l.filter fun b => b.col == (c : Int)).length ≤ GRID_ROWS := by
  rcases hinv with ⟨hcu, hib⟩
  set f := l.filter fun b => b.col == (c : Int) with hf
  have hcolc : ∀ b ∈ f, b.col = (c : Int) := by
    intro b hb
    have := List.of_mem_filter hb
    exact_mod_cast of_decide_eq_true (by simpa using this)
  have hpw : f.Pairwise cellFree := hcu.sublist (List.filter_sublist l)
  have hrows : (f.map fun b => b.row).Nodup := by
    rw [List.Nodup, List.pairwise_map]
    refine hpw.imp_of_mem ?_
    intro a b ha hb hcf
    rcases hcf with h | h
    · exact h
    · exact absurd (by rw [hcolc a ha, hcolc b hb]) h
  have hbnd : ∀ x ∈ f.map fun b => b.row, 0 ≤ x ∧ x < (GRID_ROWS : Int) := by
    intro x hx
    rcases List.mem_map.mp hx with ⟨b, hb, rfl⟩
    rcases hib b (List.mem_of_mem_filter hb) with ⟨h1, h2, -, -⟩
    exact ⟨h1, h2⟩
  have := length_le_of_nodup_bounded (f.map fun b => b.row) GRID_ROWS hrows hbnd
  simpa using this

lemma mem_gravityCol_bounds {remaining : List Block} {c : Nat} {x : Block}
    (hinv : GridInv remaining) (hc : c < GRID_COLS) (hx : x ∈ gravityCol remaining c) :
    0 ≤ x.row ∧ x.row < (GRID_ROWS : Int) ∧ 0 ≤ x.col ∧ x.col < (GRID_COLS : Int) := by
  have hcol := col_of_mem_gravityCol hx
  have hlen : ((remaining.filter fun b => b.col == (c : Int)).insertionSort rowGe).length ≤
      GRID_ROWS := by
    rw [List.length_insertionSort]
    exact col_filter_length_le hinv c
  rcases mem_assignRows.mp hx with ⟨i, hi, rfl⟩
  have hi' : (i : Int) < (GRID_ROWS : Int) := by exact_mod_cast lt_of_lt_of_le hi hlen
  refine ⟨by simp only; omega, by simp only; omega, ?_, ?_⟩
  · rw [hcol]; positivity
  · rw [hcol]; exact_mod_cast hc

lemma gravityCol_cellUnique (remaining : List Block) (c : Nat) :
    (gravityCol remaining c).Pairwise cellFree := by
  refine (assignRows_pairwise_desc _ _).imp ?_
  intro a b h
  exact Or.inl (by omega)

lemma gravityPass_gridInv {remaining : List Block} (hinv : GridInv remaining) :
    GridInv (gravityPass remaining) := by
  rw [gravityPass_eq_flatMap]
  constructor
  · rw [CellUnique, List.pairwise_flatMap]
    constructor
    · intro c _
      exact gravityCol_cellUnique remaining c
    · refine (List.pairwise_lt_range GRID_COLS).imp_of_mem ?_
      intro c1 c2 _ _ hlt x hx y hy
      right
      rw [col_of_mem_gravityCol hx, col_of_mem_gravityCol hy]
      exact_mod_cast Nat.ne_of_lt hlt
  · intro b hb
    rcases List.mem_flatMap.mp hb with ⟨c, hc, hbc⟩
    exact mem_gravityCol_bounds hinv (List.mem_range.mp hc) hbc

lemma flatMap_eq_of_single {γ : Type} (l : List Nat) (hnd : l.Nodup) (c : Nat) (hc : c ∈ l)
    (f : Nat → List γ) (hf : ∀ c' ∈ l, c' ≠ c → f c' = []) : l.flatMap f = f c := by
  induction l with
  | nil => exact absurd hc (by simp)
  | cons a t ih =>
    rw [List.nodup_cons] at hnd
    rcases List.mem_cons.mp hc with rfl | hct
    · have ht : t.flatMap f = [] := by
        rw [List.flatMap_eq_nil_iff]
        intro x hx
        exact hf x (List.mem_cons_of_mem _ hx) (fun he => hnd.1 (he ▸ hx))
      rw [List.flatMap_cons, ht, List.append_nil]
    · have ha : f a = [] := by
        refine hf a (List.mem_cons_self _ _) ?_
        intro he
        exact hnd.1 (he ▸ hct)
      rw [List.flatMap_cons, ha, List.nil_append]
      exact ih hnd.2 hct fun x hx hne => hf x (List.mem_cons_of_mem _ hx) hne

lemma filter_gravityPass (remaining : List Block) (c : Nat) (hc : c < GRID_COLS) :
    (gravityPass remaining).filter (fun b => b.col == (c : Int)) = gravityCol remaining c := by
  rw [gravityPass_eq_flatMap, List.filter_flatMap]
  have h := flatMap_eq_of_single (List.range GRID_COLS) (List.nodup_range GRID_COLS) c
    (List.mem_range.mpr hc)
    (fun c' => (gravityCol remaining c').filter (fun b => b.col == (c : Int)))
    ?_
  · rw [h, List.filter_eq_self]
    intro b hb
    rw [col_of_mem_gravityCol hb]
    exact beq_self_eq_true _
  · intro c' _ hne
    rw [List.filter_eq_nil_iff]
    intro b hb
    rw [col_of_mem_gravityCol hb]
    simp only [beq_iff_eq]
    exact fun he => hne (by exact_mod_cast he)

lemma gravityCol_sorted (remaining : List Block) (c : Nat) :
    (gravityCol remaining c).Sorted rowGe := by
  refine (assignRows_pairwise_desc _ _).imp ?_
  intro a b h
  exact le_of_lt h

lemma assignRows_assignRows (r r' : Int) (l : List Block) :
    assignRows r (assignRows r' l) = assignRows r l := by
  induction l generalizing r r' with
  | nil => rfl
  | cons b bs ih => simp [assignRows, ih]

lemma gravityCol_gravityPass (l : List Block) (c : Nat) (hc : c < GRID_COLS) :
    gravityCol (gravityPass l) c = gravityCol l c := by
  show assignRows ((GRID_ROWS : Int) - 1)
      (((gravityPass l).filter fun b => b.col == (c : Int)).insertionSort rowGe) = _
  rw [filter_gravityPass l c hc, (gravityCol_sorted l c).insertionSort_eq]
  show assignRows _ (assignRows _ _) = _
  rw [assignRows_assignRows]
  rfl

/-! ## C9 -/

/-- C9: the gravity pass is idempotent — applying it twice with no
removal in between equals applying it once (for every block list). -/
theorem gravity_idempotent (l : List Block) :
    gravityPass (gravityPass l) = gravityPass l := by
  rw [gravityPass_eq_flatMap (gravityPass l), gravityPass_eq_flatMap l]
  unfold List.flatMap
  congr 1
  apply List.map_congr_left
  intro c hcm
  exact gravityCol_gravityPass l c (List.mem_range.mp hcm)

/-! ## C3 -/

lemma gravityCol_subset (v : List Block) (c : Nat) (hc : c < GRID_COLS) {x : Block}
    (hx : x ∈ gravityCol v c) : x ∈ gravityPass v := by
  rw [gravityPass_eq_flatMap]
  exact List.mem_flatMap.mpr ⟨c, List.mem_range.mpr hc, hx⟩

lemma mem_gravityCol_of_col {v : List Block} {c : Nat} (hc : c < GRID_COLS) {b : Block}
    (hb : b ∈ gravityPass v) (hcol : b.col = (c : Int)) : b ∈ gravityCol v c := by
  have hmem : b ∈ (gravityPass v).filter (fun x => x.col == (c : Int)) :=
    List.mem_filter.mpr ⟨hb, by rw [hcol]; exact beq_self_eq_true _⟩
  rwa [filter_gravityPass v c hc] at hmem

lemma gravityCol_row_range {v : List Block} {c : Nat} {b : Block}
    (hb : b ∈ gravityCol v c) :
    (GRID_ROWS : Int) - (v.filter fun x => x.col == (c : Int)).length ≤ b.row ∧
      b.row < (GRID_ROWS : Int) := by
  have h := assignRows_row_le hb
  rw [List.length_insertionSort] at h
  omega

lemma gravityCol_exists_row (v : List Block) (c : Nat) (r : Int)
    (h1 : (GRID_ROWS : Int) - (v.filter fun x => x.col == (c : Int)).length ≤ r)
    (h2 : r < (GRID_ROWS : Int)) :
    ∃ b ∈ gravityCol v c, b.row = r := by
  set m := (v.filter fun x => x.col == (c : Int)).insertionSort rowGe with hm
  have hml : m.length = (v.filter fun x => x.col == (c : Int)).length :=
    List.length_insertionSort _ _
  set i : Nat := ((GRID_ROWS : Int) - 1 - r).toNat with hi
  have hipos : (0 : Int) ≤ (GRID_ROWS : Int) - 1 - r := by omega
  have hicast : (i : Int) = (GRID_ROWS : Int) - 1 - r := Int.toNat_of_nonneg hipos
  have hilt : i < m.length := by
    rw [hml]
    omega
  have hglt : i < (gravityCol v c).length := by
    show i < (assignRows _ m).length
    rw [assignRows_length]
    exact hilt
  have hget : (gravityCol v c).get ⟨i, hglt⟩ =
      { m.get ⟨i, hilt⟩ with row := (GRID_ROWS : Int) - 1 - i } :=
    assignRows_get _ m i hilt
  refine ⟨(gravityCol v c).get ⟨i, hglt⟩, List.get_mem _ _ _, ?_⟩
  rw [hget]
  simp only
  omega

lemma gravity_order (v : List Block) (c : Nat) (a b : Block)
    (ha : a ∈ v) (hb : b ∈ v) (hac : a.col = (c : Int)) (hbc : b.col = (c : Int))
    (hrow : b.row < a.row) :
    ∃ x y, x ∈ gravityCol v c ∧ y ∈ gravityCol v c ∧ x.id = a.id ∧ y.id = b.id ∧
      x.col = a.col ∧ y.col = b.col ∧ y.row < x.row := by
  set m := (v.filter fun z => z.col == (c : Int)).insertionSort rowGe with hm
  have ham : a ∈ m := (List.mem_insertionSort rowGe).mpr
    (List.mem_filter.mpr ⟨ha, by rw [hac]; exact beq_self_eq_true _⟩)
  have hbm : b ∈ m := (List.mem_insertionSort rowGe).mpr
    (List.mem_filter.mpr ⟨hb, by rw [hbc]; exact beq_self_eq_true _⟩)
  rcases List.mem_iff_getElem.mp ham with ⟨i, hi, hia⟩
  rcases List.mem_iff_getElem.mp hbm with ⟨j, hj, hjb⟩
  have hsorted : m.Sorted rowGe := List.sorted_insertionSort rowGe _
  have hpw := List.pairwise_iff_getElem.mp hsorted
  have hij : i < j := by
    rcases lt_trichotomy i j with h | h | h
    · exact h
    · exfalso
      subst h
      have hab : a = b := by rw [← hia, ← hjb]
      rw [hab] at hrow
      omega
    · exfalso
      have := hpw j i hj hi h
      rw [hia, hjb] at this
      rw [rowGe] at this
      omega
  have hgi : i < (gravityCol v c).length := by
    show i < (assignRows _ m).length
    rw [assignRows_length]
    exact hi
  have hgj : j < (gravityCol v c).length := by
    show j < (assignRows _ m).length
    rw [assignRows_length]
    exact hj
  have hia2 : m.get ⟨i, hi⟩ = a := hia
  have hjb2 : m.get ⟨j, hj⟩ = b := hjb
  have hgeti : (gravityCol v c).get ⟨i, hgi⟩ =
      { m.get ⟨i, hi⟩ with row := (GRID_ROWS : Int) - 1 - i } :=
    assignRows_get _ m i hi
  have hgetj : (gravityCol v c).get ⟨j, hgj⟩ =
      { m.get ⟨j, hj⟩ with row := (GRID_ROWS : Int) - 1 - j } :=
    assignRows_get _ m j hj
  refine ⟨(gravityCol v c).get ⟨i, hgi⟩, (gravityCol v c).get ⟨j, hgj⟩,
          List.get_mem _ _ _, List.get_mem _ _ _, ?_, ?_, ?_, ?_, ?_⟩
  · rw [hgeti, hia2]
  · rw [hgetj, hjb2]
  · rw [hgeti, hia2]
  · rw [hgetj, hjb2]
  · rw [hgeti, hgetj]
    simp only
    have : (i : Int) < (j : Int) := by exact_mod_cast hij
    omega

/-- C3: after a clear event, for every column `c < GRID_COLS` the rows of
the surviving blocks of column `c` form the contiguous range
`[GRID_ROWS - k, GRID_ROWS)` where `k` is the number of survivors in that
column (no gaps, ending at `GRID_ROWS - 1`), and survivors of a column
keep their relative vertical order: the block with the larger pre-clear
row ends up with the larger post-clear row. -/
theorem gravity_no_gap_and_order (s : GameState) (t : Int)
    (hne : s.selectedIds ≠ []) (hsum : currentSumOf s = s.targetSum)
    (c : Nat) (hc : c < GRID_COLS) :
    ((∀ b ∈ (sumCheckStep t s).1.blocks, b.col = (c : Int) →
        (GRID_ROWS : Int) - ((survivors s).filter fun x => x.col == (c : Int)).length ≤ b.row
        ∧ b.row < (GRID_ROWS : Int))
    ∧ (∀ r : Int,
        (GRID_ROWS : Int) - ((survivors s).filter fun x => x.col == (c : Int)).length ≤ r →
        r < (GRID_ROWS : Int) →
        ∃ b ∈ (sumCheckStep t s).1.blocks, b.col = (c : Int) ∧ b.row = r))
    ∧ ∀ a b, a ∈ survivors s → b ∈ survivors s →
        a.col = (c : Int) → b.col = (c : Int) → b.row < a.row →
        ∃ x y, x ∈ (sumCheckStep t s).1.blocks ∧ y ∈ (sumCheckStep t s).1.blocks ∧
          x.id = a.id ∧ y.id = b.id ∧ x.col = a.col ∧ y.col = b.col ∧ y.row < x.row := by
  have hblocks : (sumCheckStep t s).1.blocks = gravityPass (survivors s) := by
    rw [sumCheckStep_fire s t hne hsum]
    rfl
  refine ⟨⟨?_, ?_⟩, ?_⟩
  · intro b hb hcol
    rw [hblocks] at hb
    exact gravityCol_row_range (mem_gravityCol_of_col hc hb hcol)
  · intro r h1 h2
    rcases gravityCol_exists_row (survivors s) c r h1 h2 with ⟨b, hb, hrow⟩
    exact ⟨b, by rw [hblocks]; exact gravityCol_subset (survivors s) c hc hb,
           col_of_mem_gravityCol hb, hrow⟩
  · intro a b ha hb hac hbc hrow
    rcases gravity_order (survivors s) c a b ha hb hac hbc hrow with
      ⟨x, y, hx, hy, hxa, hyb, hxc, hyc, hxy⟩
    exact ⟨x, y, by rw [hblocks]; exact gravityCol_subset (survivors s) c hc hx,
           by rw [hblocks]; exact gravityCol_subset (survivors s) c hc hy,
           hxa, hyb, hxc, hyc, hxy⟩

/-- Witness for C3: clearing the middle block of a three-block column. -/
theorem gravity_no_gap_and_order_witness :
    c3State.selectedIds ≠ [] ∧ currentSumOf c3State = c3State.targetSum ∧ 0 < GRID_COLS ∧
    (((∀ b ∈ (sumCheckStep 9 c3State).1.blocks, b.col = ((0 : Nat) : Int) →
        (GRID_ROWS : Int) - ((survivors c3State).filter fun x => x.col == ((0 : Nat) : Int)).length
          ≤ b.row
        ∧ b.row < (GRID_ROWS : Int))
    ∧ (∀ r : Int,
        (GRID_ROWS : Int) - ((survivors c3State).filter fun x => x.col == ((0 : Nat) : Int)).length
          ≤ r →
        r < (GRID_ROWS : Int) →
        ∃ b ∈ (sumCheckStep 9 c3State).1.blocks, b.col = ((0 : Nat) : Int) ∧ b.row = r))
    ∧ ∀ a b, a ∈ survivors c3State → b ∈ survivors c3State →
        a.col = ((0 : Nat) : Int) → b.col = ((0 : Nat) : Int) → b.row < a.row →
        ∃ x y, x ∈ (sumCheckStep 9 c3State).1.blocks ∧ y ∈ (sumCheckStep 9 c3State).1.blocks ∧
          x.id = a.id ∧ y.id = b.id ∧ x.col = a.col ∧ y.col = b.col ∧ y.row < x.row) :=
  ⟨by decide, by decide, by decide,
    gravity_no_gap_and_order c3State 9 (by decide) (by decide) 0 (by decide)⟩

/-! ## C5 -/

lemma initBlocks_gridInv (fid : Nat → Nat → String) (fval : Nat → Nat → Int) :
    GridInv (initBlocks fid fval) := by
  have h10 : (GRID_ROWS : Int) = 10 := rfl
  have h4 : (INITIAL_ROWS : Nat) = 4 := rfl
  constructor
  · rw [CellUnique, initBlocks, List.pairwise_flatMap]
    constructor
    · intro r _
      rw [List.pairwise_map]
      refine (List.pairwise_lt_range GRID_COLS).imp ?_
      intro c1 c2 h
      right
      simp only
      exact_mod_cast Nat.ne_of_lt h
    · refine (List.pairwise_lt_range INITIAL_ROWS).imp_of_mem ?_
      intro r1 r2 _ _ hlt x hx y hy
      rcases List.mem_map.mp hx with ⟨c1, -, rfl⟩
      rcases List.mem_map.mp hy with ⟨c2, -, rfl⟩
      left
      simp only
      have : (r1 : Int) ≠ (r2 : Int) := by exact_mod_cast Nat.ne_of_lt hlt
      omega
  · intro b hb
    rw [initBlocks] at hb
    rcases List.mem_flatMap.mp hb with ⟨r, hr, hb2⟩
    rcases List.mem_map.mp hb2 with ⟨c, hcm, rfl⟩
    have hr' : r < INITIAL_ROWS := List.mem_range.mp hr
    have hc' : c < GRID_COLS := List.mem_range.mp hcm
    have hri : (r : Int) < 4 := by exact_mod_cast h4 ▸ hr'
    have hci : (c : Int) < (GRID_COLS : Int) := by exact_mod_cast hc'
    refine ⟨?_, ?_, ?_, ?_⟩ <;> simp only
    · omega
    · omega
    · positivity
    · exact hci

lemma addNewRow_gridInv (fid : Nat → String) (fval : Nat → Int) (s : GameState)
    (hinv : GridInv s.blocks) : GridInv (addNewRow fid fval s).blocks := by
  have h10 : (GRID_ROWS : Int) = 10 := rfl
  unfold addNewRow
  by_cases hany : (s.blocks.any fun b => b.row ≤ 0) = true
  · rw [if_pos hany]
    exact hinv
  · rw [if_neg hany]
    simp only
    have hall : ∀ b ∈ s.blocks, 0 < b.row := by
      intro b hb
      by_contra hle
      exact hany (List.any_eq_true.mpr ⟨b, hb, decide_eq_true (by omega)⟩)
    constructor
    · rw [CellUnique, List.pairwise_append]
      refine ⟨?_, ?_, ?_⟩
      · refine List.Pairwise.map _ ?_ hinv.1
        intro a b hab
        rcases hab with h | h
        · exact Or.inl (by simp only; omega)
        · exact Or.inr (by simpa using h)
      · rw [newRow, List.pairwise_map]
        refine (List.pairwise_lt_range GRID_COLS).imp ?_
        intro c1 c2 h
        right
        simp only
        exact_mod_cast Nat.ne_of_lt h
      · intro x hx y hy
        rcases List.mem_map.mp hx with ⟨bx, hbx, rfl⟩
        rw [newRow] at hy
        rcases List.mem_map.mp hy with ⟨c, -, rfl⟩
        left
        simp only
        have h9 : bx.row < (GRID_ROWS : Int) := (hinv.2 bx hbx).2.1
        omega
    · intro b hb
      rcases List.mem_append.mp hb with h | h
      · rcases List.mem_map.mp h with ⟨bx, hbx, rfl⟩
        rcases hinv.2 bx hbx with ⟨-, h2, h3, h4⟩
        have h0 := hall bx hbx
        exact ⟨by simp only; omega, by simp only; omega, by simpa using h3, by simpa using h4⟩
      · rw [newRow] at h
        rcases List.mem_map.mp h with ⟨c, hcm, rfl⟩
        have hc' : c < GRID_COLS := List.mem_range.mp hcm
        have hci : (c : Int) < (GRID_COLS : Int) := by exact_mod_cast hc'
        exact ⟨by simp only; omega, by simp only; omega, by simp only; positivity, hci⟩

lemma toggleBlock_blocks (id : String) (s : GameState) :
    (toggleBlock id s).blocks = s.blocks := by
  unfold toggleBlock
  split <;> rfl

lemma filter_gridInv (l : List Block) (p : Block → Bool) (h : GridInv l) :
    GridInv (l.filter p) :=
  ⟨h.1.sublist (List.filter_sublist l), fun b hb => h.2 b (List.mem_of_mem_filter hb)⟩

lemma sumCheckStep_gridInv (t : Int) (s : GameState) (h : GridInv s.blocks) :
    GridInv (sumCheckStep t s).1.blocks := by
  by_cases hne : s.selectedIds = []
  · have hstep : sumCheckStep t s = (s, false) := by
      simp [sumCheckStep, hne]
    rw [hstep]
    exact h
  · rcases lt_trichotomy (currentSumOf s) s.targetSum with hlt | heq | hgt
    · rw [sumCheckStep_under s t hne hlt]
      exact h
    · rw [sumCheckStep_fire s t hne heq]
      exact gravityPass_gridInv (filter_gridInv _ _ h)
    · rw [sumCheckStep_over s t hne hgt]
      exact h

lemma tick_gridInv (fid : Nat → String) (fval : Nat → Int) (s : GameState)
    (h : GridInv s.blocks) : GridInv (tick fid fval s).blocks := by
  unfold tick
  by_cases hrun : (s.gameStarted && !s.gameOver && !s.isPaused) = true
  · rw [if_pos hrun]
    by_cases hsp : s.scrollProgress + speed s.level ≥ 100
    · rw [if_pos hsp]
      exact addNewRow_gridInv fid fval s h
    · rw [if_neg hsp]
      exact h
  · rw [if_neg hrun]
    exact h

lemma reachable_gridInv (s : GameState) (h : Reachable s) : GridInv s.blocks := by
  induction h with
  | ofInit fid fval rand m startLevel => exact initBlocks_gridInv fid fval
  | ofSpawn fid fval s _ ih => exact addNewRow_gridInv fid fval s ih
  | ofTick fid fval s _ ih => exact tick_gridInv fid fval s ih
  | ofToggle id s _ ih => rw [toggleBlock_blocks]; exact ih
  | ofCheck t s _ ih => exact sumCheckStep_gridInv t s ih

/-- C5: every state reachable from `initGame` has at most one block per
`(row, col)` cell; moreover `initGame`'s grid satisfies the invariant,
`addNewRow` preserves it from any in-bounds cell-unique grid, and the
gravity pass re-establishes cell-uniqueness for every input. -/
theorem cell_uniqueness_invariant :
    (∀ s : GameState, Reachable s → CellUnique s.blocks)
    ∧ (∀ (fid : Nat → Nat → String) (fval : Nat → Nat → Int),
        CellUnique (initBlocks fid fval))
    ∧ (∀ (fid : Nat → String) (fval : Nat → Int) (s : GameState),
        GridInv s.blocks → CellUnique (addNewRow fid fval s).blocks)
    ∧ (∀ l : List Block, CellUnique (gravityPass l)) :=
  ⟨fun s h => (reachable_gridInv s h).1,
   fun fid fval => (initBlocks_gridInv fid fval).1,
   fun fid fval s h => (addNewRow_gridInv fid fval s h).1,
   fun l => by
     rw [gravityPass_eq_flatMap, CellUnique, List.pairwise_flatMap]
     constructor
     · intro c _
       exact gravityCol_cellUnique l c
     · refine (List.pairwise_lt_range GRID_COLS).imp_of_mem ?_
       intro c1 c2 _ _ hlt x hx y hy
       right
       rw [col_of_mem_gravityCol hx, col_of_mem_gravityCol hy]
       exact_mod_cast Nat.ne_of_lt hlt⟩

/-- Witness for C5: the cell-uniqueness conclusion discharged at a
concrete initial state and a concrete `addNewRow` call. -/
theorem cell_uniqueness_invariant_witness :
    CellUnique (initGame (fun _ _ => "i") (fun _ _ => 1) 0 GameMode.classic 1).blocks ∧
    GridInv c2wState.blocks ∧
    CellUnique (addNewRow (fun _ => "n") (fun _ => 2) c2wState).blocks :=
  ⟨cell_uniqueness_invariant.1 _
      (Reachable.ofInit (fun _ _ => "i") (fun _ _ => 1) 0 GameMode.classic 1),
   by decide,
   cell_uniqueness_invariant.2.2.1 (fun _ => "n") (fun _ => 2) c2wState (by decide)⟩
